import Mathlib

/-!
Shallow embedding of `crates/ra_ide_api/src/goto_definition.rs` and
`crates/ra_ide_api/src/hover.rs`.

The two source files are pure query layers over external collaborators
(the `hir` semantic database, the syntax tree, and the symbol index).
Those collaborators are modelled as an explicit environment value `Db`
holding the results of every external call the two files make for one
query; the control flow of the two files themselves is translated
faithfully into total Lean functions over that environment.
-/

/-- A half-open byte span `[lo, hi)` (ra_syntax `TextRange`). -/
structure TextRange where
  lo : Nat
  hi : Nat
deriving DecidableEq, Repr

/-- `outer` covers `inner` (ra_syntax `TextRange::contains_range`). -/
def TextRange.covers (outer inner : TextRange) : Bool :=
  decide (outer.lo ≤ inner.lo ∧ inner.hi ≤ outer.hi)

/-- A navigation destination: file id, full declaration range, focus (name)
range, short signature label and optional documentation.  The concrete
`NavigationTarget` constructors of the repository live outside the two
source files; the environment supplies their outputs. -/
structure NavigationTarget where
  file : Nat
  fullRange : TextRange
  focusRange : Option TextRange
  label : Option String
  docs : Option String
deriving DecidableEq, Repr

/-- Opaque identifier standing for a resolved semantic entity
(`hir::MacroDef`, `hir::StructField`, `hir::Function`, ...). -/
abbrev EntityId := Nat

/-- One symbol delivered by `symbol_index::index_resolve`. -/
structure IndexSymbol where
  id : Nat
deriving DecidableEq, Repr

/-- The three user-defined algebraic data type forms of `hir::AdtDef`. -/
inductive AdtKind where
  | struct
  | union
  | enum
deriving DecidableEq, Repr

/-- A resolved `hir::AdtDef` value. -/
structure AdtDef where
  kind : AdtKind
  id : EntityId
deriving DecidableEq, Repr

/-- `hir::ImplItem`: an item inside an impl block. -/
inductive ImplItem where
  | method (id : EntityId)
  | const (id : EntityId)
  | typeAlias (id : EntityId)
deriving DecidableEq, Repr

/-- The variants of `hir::ModuleDef`. -/
inductive ModuleDefKind where
  | module
  | function
  | struct
  | union
  | enum
  | enumVariant
  | const
  | static
  | trait
  | typeAlias
  | builtinType
deriving DecidableEq, Repr

/-- A resolved `hir::ModuleDef` value. -/
structure ModuleDef where
  kind : ModuleDefKind
  id : EntityId
deriving DecidableEq, Repr

/-- A `hir::Ty` as the two files consume it: only `as_adt` is ever called
(the substitutions component of `as_adt`'s result is discarded by both
call sites, so it is not modelled). -/
structure Ty where
  asAdt : Option AdtDef
deriving DecidableEq, Repr

/-- `name_ref_kind::NameRefKind`: the classification of a name reference.
`classify_name_ref` itself lives outside the two source files, so its
result (an `Option NameRefKind`) is an input of the embedded functions. -/
inductive NameRefKind where
  | mac (id : EntityId)
  | fieldAccess (field : EntityId)
  | assocItem (item : ImplItem)
  | method (func : EntityId)
  | defn (d : ModuleDef)
  | selfType (ty : Ty)
  | pat (id : EntityId)
  | selfParam (id : EntityId)
  | genericParam (id : EntityId)
deriving DecidableEq, Repr

/-- `hir::FieldSource`: a field's defining source is either a named field
node (with its doc comment and short label) or a positional field. -/
inductive FieldSource where
  | named (docs : Option String) (label : Option String)
  | pos
deriving DecidableEq, Repr

/-- `hir::ModuleSource`: a module is defined either by a whole source file
or by an inline `module` node (with its doc comment and short label). -/
inductive ModuleSource where
  | sourceFile
  | module (docs : Option String) (label : Option String)
deriving DecidableEq, Repr

/-- Environment of one query: the outputs of every call the two source
files make into the semantic database, the navigation-target builders and
the symbol index.  `indexResolve` is the result of
`symbol_index::index_resolve(db, name_ref)` for the name reference under
the cursor, shared by `reference_definition` and `hover` exactly as the
two files share that call. -/
structure Db where
  /-- `def.source(db).ast.doc_comment_text()` for an entity. -/
  docsOf : EntityId → Option String
  /-- `def.source(db).ast.short_label()` for an entity. -/
  labelOf : EntityId → Option String
  /-- `field.source(db).ast` for a field entity. -/
  fieldSource : EntityId → FieldSource
  /-- `module.definition_source(db).ast` for a module entity. -/
  moduleSource : EntityId → ModuleSource
  /-- `NavigationTarget::from_macro_def`. -/
  navMacroDef : EntityId → NavigationTarget
  /-- `NavigationTarget::from_field`. -/
  navField : EntityId → NavigationTarget
  /-- `NavigationTarget::from_impl_item`. -/
  navImplItem : ImplItem → NavigationTarget
  /-- `NavigationTarget::from_def_source`. -/
  navDefSource : EntityId → NavigationTarget
  /-- `NavigationTarget::from_def` (fallible: `None` e.g. for a builtin). -/
  navDef : ModuleDef → Option NavigationTarget
  /-- `NavigationTarget::from_adt_def`. -/
  navAdtDef : AdtDef → NavigationTarget
  /-- `NavigationTarget::from_pat` (file id, pattern). -/
  navPat : Nat → EntityId → NavigationTarget
  /-- `NavigationTarget::from_self_param` (file id, parameter). -/
  navSelfParam : Nat → EntityId → NavigationTarget
  /-- `NavigationTarget::from_symbol`. -/
  navSymbol : IndexSymbol → NavigationTarget
  /-- `NavigationTarget::from_module`. -/
  navModule : EntityId → NavigationTarget
  /-- `hir::source_binder::module_from_declaration` for the `module`
  node under the cursor (`none` when resolution fails). -/
  moduleFromDeclaration : Option EntityId
  /-- `symbol_index::index_resolve(db, name_ref)` for this query. -/
  indexResolve : List IndexSymbol
  /-- `display::docs_from_symbol`. -/
  docsFromSymbol : IndexSymbol → Option String
  /-- `display::description_from_symbol`. -/
  descriptionFromSymbol : IndexSymbol → Option String
  /-- `display::rust_code_markup`. -/
  rustCodeMarkup : String → String
  /-- `display::rust_code_markup_with_doc`. -/
  rustCodeMarkupWithDoc : String → Option String → String
  /-- The `type_of` query of hover.rs (defined over the tree model below)
  evaluated at a file range; hover consumes its result. -/
  typeOfAt : Nat → TextRange → Option String

/-- `goto_definition::ReferenceResult`. -/
inductive ReferenceResult where
  | Exact (target : NavigationTarget)
  | Approximate (targets : List NavigationTarget)
deriving DecidableEq, Repr

/-- `ReferenceResult::to_vec`. -/
def ReferenceResult.to_vec : ReferenceResult → List NavigationTarget
  | .Exact target => [target]
  | .Approximate v => v

/-- `goto_definition::reference_definition`.  The `kind` argument is the
result of `classify_name_ref(db, &analyzer, name_ref)`.  Arms that return
in the Rust `match` are the non-`fallback` arms here; the arms that fall
out of the Rust `match` without returning (`SelfType` on a non-ADT type,
`GenericParam`, and the unclassified case) reach the index fallback. -/
def reference_definition (db : Db) (file_id : Nat)
    (kind : Option NameRefKind) : ReferenceResult :=
  -- Fallback index based approach:
  let fallback := ReferenceResult.Approximate (db.indexResolve.map db.navSymbol)
  match kind with
  | some (.mac m) => .Exact (db.navMacroDef m)
  | some (.fieldAccess field) => .Exact (db.navField field)
  | some (.assocItem assoc) => .Exact (db.navImplItem assoc)
  | some (.method func) => .Exact (db.navDefSource func)
  | some (.defn d) =>
    match db.navDef d with
    | some nav => .Exact nav
    | none => .Approximate []
  | some (.selfType ty) =>
    match ty.asAdt with
    | some def_id => .Exact (db.navAdtDef def_id)
    | none => fallback
  | some (.pat p) => .Exact (db.navPat file_id p)
  | some (.selfParam par) => .Exact (db.navSelfParam file_id par)
  | some (.genericParam _) =>
    -- FIXME in the source: go to the generic param def
    fallback
  | none => fallback

/-- The syntactic category of the parent node of a declaration name, as
dispatched by `named_target`'s visitor and by `hover`'s declaration-name
visitor.  `other` is every category the closed dispatch table does not
list.  For a module node, `hasSemi` records `ast::Module::has_semi()`
(a `mod name;` declaration without an inline body). -/
inductive DeclKind where
  | structDef
  | enumDef
  | enumVariant
  | fnDef
  | typeAliasDef
  | constDef
  | staticDef
  | traitDef
  | namedFieldDef
  | module (hasSemi : Bool)
  | mcall
  | other
deriving DecidableEq, Repr

/-- The parent syntax node of a declaration name, carrying exactly what
the two source files read off it: its category, its full range, the range
of its name token, `doc_comment_text()` and `short_label()`. -/
structure DeclNode where
  kind : DeclKind
  range : TextRange
  nameRange : TextRange
  docs : Option String
  label : Option String
deriving DecidableEq, Repr

/-- An `ast::Name` node (a declaration name) under the cursor: its range
and its parent node, when it has one. -/
structure NameInfo where
  range : TextRange
  parent : Option DeclNode
deriving DecidableEq, Repr

/-- Modelled from the spec: `NavigationTarget::from_named` (the
navigation target builder, which is not under src/).  Per spec §4.3/§4.4
it assembles the target from the declaration's full range, its name's
focus range, the given documentation and the given short label. -/
def NavigationTarget.from_named (file_id : Nat) (node : DeclNode)
    (docs : Option String) (label : Option String) : NavigationTarget :=
  { file := file_id
    fullRange := node.range
    focusRange := some node.nameRange
    label := label
    docs := docs }

/-- `goto_definition::named_target`: the closed visitor dispatch over the
declaration categories.  Every listed category builds
`from_named(file_id, node, doc_comment_text, short_label)`; a macro call
passes `None` for the label; any other parent is not accepted. -/
def named_target (file_id : Nat) (node : DeclNode) : Option NavigationTarget :=
  match node.kind with
  | .structDef => some (.from_named file_id node node.docs node.label)
  | .enumDef => some (.from_named file_id node node.docs node.label)
  | .enumVariant => some (.from_named file_id node node.docs node.label)
  | .fnDef => some (.from_named file_id node node.docs node.label)
  | .typeAliasDef => some (.from_named file_id node node.docs node.label)
  | .constDef => some (.from_named file_id node node.docs node.label)
  | .staticDef => some (.from_named file_id node node.docs node.label)
  | .traitDef => some (.from_named file_id node node.docs node.label)
  | .namedFieldDef => some (.from_named file_id node node.docs node.label)
  | .module _ => some (.from_named file_id node node.docs node.label)
  | .mcall => some (.from_named file_id node node.docs none)
  | .other => none

/-- `goto_definition::name_definition`.  A `mod name;` declaration whose
module resolves via `module_from_declaration` returns the
`from_module` target for the child module; otherwise the closed
`named_target` dispatch decides. -/
def name_definition (db : Db) (file_id : Nat)
    (name : NameInfo) : Option (List NavigationTarget) :=
  match name.parent with
  | none => none
  | some parent =>
    let moduleCase : Option (List NavigationTarget) :=
      match parent.kind with
      | .module hasSemi =>
        if hasSemi then
          match db.moduleFromDeclaration with
          | some child_module => some [db.navModule child_module]
          | none => none
        else none
      | _ => none
    match moduleCase with
    | some navs => some navs
    | none =>
      match named_target file_id parent with
      | some nav => some [nav]
      | none => none

/-- `hover::HoverResult`: the rendered text blocks and the exactness
flag. -/
structure HoverResult where
  results : List String
  exact : Bool
deriving DecidableEq, Repr

/-- `HoverResult::new`: empty, and exact is assumed by default. -/
def HoverResult.new : HoverResult :=
  { results := [], exact := true }

/-- `HoverResult::extend`: appends the optional item (zero or one
blocks). -/
def HoverResult.extend (r : HoverResult) (item : Option String) : HoverResult :=
  { r with results := r.results ++ item.toList }

/-- `HoverResult::is_exact`. -/
def HoverResult.is_exact (r : HoverResult) : Bool :=
  r.exact

/-- `HoverResult::is_empty`. -/
def HoverResult.is_empty (r : HoverResult) : Bool :=
  r.results.isEmpty

/-- `HoverResult::len`. -/
def HoverResult.len (r : HoverResult) : Nat :=
  r.results.length

/-- `hover::hover_text`: combines documentation and description into one
block via `rust_code_markup_with_doc`; a lone documentation string passes
through; neither yields no block. -/
def hover_text (db : Db) (docs : Option String) (desc : Option String) :
    Option String :=
  match desc, docs with
  | some d, ds => some (db.rustCodeMarkupWithDoc d ds)
  | none, some ds => some ds
  | none, none => none

/-- The local fn `from_def_source` inside `hover`: renders
`hover_text(src.ast.doc_comment_text(), src.ast.short_label())` for an
entity's defining source. -/
def from_def_source (db : Db) (id : EntityId) : Option String :=
  hover_text db (db.docsOf id) (db.labelOf id)

/-- An `ast::NameRef` under the cursor: its range and the result of
`classify_name_ref` on it. -/
structure NameRefInfo where
  range : TextRange
  kind : Option NameRefKind
deriving DecidableEq, Repr

/-- The position-dependent inputs of `hover`: the name reference found at
the offset (if any), the declaration name found at the offset (checked
only when no name reference was found), and the range of the nearest
enclosing expression-or-pattern node from `ancestors_at_offset` (if
any). -/
structure HoverInput where
  file_id : Nat
  nameRef : Option NameRefInfo
  name : Option NameInfo
  exprOrPat : Option TextRange
deriving Repr

/-- The `classify_name_ref` match inside `hover`: returns the accumulated
result together with the `no_fallback` flag. -/
def hoverNameRefBranch (db : Db) (nr : NameRefInfo) : HoverResult × Bool :=
  let res := HoverResult.new
  match nr.kind with
  | some (.method it) => (res.extend (from_def_source db it), false)
  | some (.mac it) => (res.extend (hover_text db (db.docsOf it) none), false)
  | some (.fieldAccess it) =>
    match db.fieldSource it with
    | .named docs label => (res.extend (hover_text db docs label), false)
    | .pos => (res, false)
  | some (.assocItem it) =>
    (res.extend
      (match it with
       | .method f => from_def_source db f
       | .const c => from_def_source db c
       | .typeAlias t => from_def_source db t), false)
  | some (.defn d) =>
    (match d.kind with
     | .module =>
       match db.moduleSource d.id with
       | .module docs label => res.extend (hover_text db docs label)
       | .sourceFile => res
     | .function => res.extend (from_def_source db d.id)
     | .struct => res.extend (from_def_source db d.id)
     | .union => res.extend (from_def_source db d.id)
     | .enum => res.extend (from_def_source db d.id)
     | .enumVariant => res.extend (from_def_source db d.id)
     | .const => res.extend (from_def_source db d.id)
     | .static => res.extend (from_def_source db d.id)
     | .trait => res.extend (from_def_source db d.id)
     | .typeAlias => res.extend (from_def_source db d.id)
     | .builtinType =>
       -- FIXME in the source: hover for builtin Type ?
       res, false)
  | some (.selfType ty) =>
    (match ty.asAdt with
     | some adt_def =>
       res.extend
         (match adt_def.kind with
          | .struct => from_def_source db adt_def.id
          | .union => from_def_source db adt_def.id
          | .enum => from_def_source db adt_def.id)
     | none => res, false)
  | some (.pat _) =>
    -- Hover for these shows type names
    (res, true)
  | some (.selfParam _) =>
    (res, true)
  | some (.genericParam _) =>
    -- FIXME in the source: hover for generic param
    (res, false)
  | none => (res, false)

/-- The declaration-name visitor inside `hover`: the `accept` call
returns `none` when the parent matches no listed category, and otherwise
the (possibly absent) rendered block. -/
def declHoverText (db : Db) (p : DeclNode) : Option (Option String) :=
  match p.kind with
  | .structDef => some (hover_text db p.docs p.label)
  | .enumDef => some (hover_text db p.docs p.label)
  | .enumVariant => some (hover_text db p.docs p.label)
  | .fnDef => some (hover_text db p.docs p.label)
  | .typeAliasDef => some (hover_text db p.docs p.label)
  | .constDef => some (hover_text db p.docs p.label)
  | .staticDef => some (hover_text db p.docs p.label)
  | .traitDef => some (hover_text db p.docs p.label)
  | .namedFieldDef => some (hover_text db p.docs p.label)
  | .module _ => some (hover_text db p.docs p.label)
  | .mcall => some (hover_text db p.docs none)
  | .other => none

/-- The index fallback loop inside `hover`: one
`hover_text(docs_from_symbol, description_from_symbol)` extension per
symbol delivered by `index_resolve`. -/
def hoverFallback (db : Db) (res : HoverResult) : HoverResult :=
  db.indexResolve.foldl
    (fun r sym =>
      r.extend (hover_text db (db.docsFromSymbol sym) (db.descriptionFromSymbol sym)))
    res

/-- The name-reference and declaration-name phases of `hover` (everything
before the widen-to-expression step): the accumulated result and the
range recorded so far.  In the declaration-name branch the Rust guard is
`!res.is_empty() && range.is_none()`; `range` is still unset there, so
only the emptiness test remains. -/
def hoverPhase1 (db : Db) (inp : HoverInput) : HoverResult × Option TextRange :=
  match inp.nameRef with
  | some nr =>
    let step := hoverNameRefBranch db nr
    let res := step.1
    let no_fallback := step.2
    let res := if res.is_empty && !no_fallback then hoverFallback db res else res
    let range := if !res.is_empty then some nr.range else none
    (res, range)
  | none =>
    match inp.name with
    | some nm =>
      let res := HoverResult.new
      let res :=
        match nm.parent with
        | some parent =>
          match declHoverText db parent with
          | some text => res.extend text
          | none => res
        | none => res
      let range := if !res.is_empty then some nm.range else none
      (res, range)
    | none => (HoverResult.new, none)

/-- `hover::hover`.  After the two name phases, a still-unset range takes
the widen-to-nearest-expression-or-pattern step (failing the whole query
when no such node exists); a final empty accumulation yields `none`. -/
def hover (db : Db) (inp : HoverInput) : Option (TextRange × HoverResult) :=
  let step := hoverPhase1 db inp
  let res := step.1
  match step.2 with
  | some range => if res.is_empty then none else some (range, res)
  | none =>
    match inp.exprOrPat with
    | none => none
    | some nodeRange =>
      let res := res.extend ((db.typeOfAt inp.file_id nodeRange).map db.rustCodeMarkup)
      if res.is_empty then none else some (nodeRange, res)

/-- The syntactic category a node can have for the `type_of` query:
expression, pattern, or anything else (including tokens, modelled as
childless nodes). -/
inductive SynCat where
  | expr
  | pat
  | other
deriving DecidableEq, Repr

/-- A syntax (sub)tree: category, range and children. -/
inductive SynNode where
  | node (cat : SynCat) (range : TextRange) (children : List SynNode)

/-- The range of a node. -/
def SynNode.range : SynNode → TextRange
  | .node _ r _ => r

/-- The category of a node. -/
def SynNode.cat : SynNode → SynCat
  | .node c _ _ => c

/-- The children of a node. -/
def SynNode.children : SynNode → List SynNode
  | .node _ _ cs => cs

mutual

/-- Number of nodes of a tree; used only as a recursion-depth bound. -/
def SynNode.size : SynNode → Nat
  | .node _ _ cs => 1 + SynNode.sizeList cs

/-- Total number of nodes of a forest. -/
def SynNode.sizeList : List SynNode → Nat
  | [] => 0
  | c :: cs => SynNode.size c + SynNode.sizeList cs

end

/-- Descent loop of `find_covering_element` together with the ancestor
chain `leaf_node.ancestors()` consumed by `type_of`: the chain from the
smallest node covering the range up to the root, smallest first.  The
descent steps into the first child whose range covers the requested
range and stops when none does.  The `fuel` argument only bounds the
recursion depth; the visited node shrinks at every step and the initial
value `SynNode.size t` exceeds the depth of every chain in `t`, so the
`0` case is never reached from `coveringPath`. -/
def coveringGo : Nat → SynNode → TextRange → List SynNode
  | 0, n, _ => [n]
  | fuel + 1, n, r =>
    match n.children.find? (fun c => TextRange.covers c.range r) with
    | some c => coveringGo fuel c r ++ [n]
    | none => [n]

/-- The ancestor chain of the covering element of `r` in `t`, smallest
node first, root last. -/
def coveringPath (t : SynNode) (r : TextRange) : List SynNode :=
  coveringGo t.size t r

/-- `find_covering_element`: the smallest node of `t` covering `r`. -/
def find_covering_element (t : SynNode) (r : TextRange) : SynNode :=
  (coveringPath t r).headD t

/-- The semantic queries `type_of` consumes, display formatting folded
in: `analyzer.type_of(db, expr)` and `analyzer.type_of_pat(db, pat)`
followed by `ty.display(db).to_string()`. -/
structure SemModel where
  typeOfExpr : SynNode → Option String
  typeOfPat : SynNode → Option String

/-- `hover::type_of`: find the smallest node covering the range, widen
through ancestors sharing that exact range to the first
expression-or-pattern node, then query the inferred type of that node
(expression and pattern forms use different semantic queries). -/
def type_of (t : SynNode) (m : SemModel) (r : TextRange) : Option String :=
  let leaf_node := find_covering_element t r
  -- if we picked identifier, expand to pattern/expression
  let widened :=
    ((coveringPath t r).takeWhile (fun it => decide (it.range = leaf_node.range))).find?
      (fun it => decide (it.cat = SynCat.expr ∨ it.cat = SynCat.pat))
  match widened with
  | none => none
  | some n =>
    match n.cat with
    | .expr => m.typeOfExpr n
    | .pat => m.typeOfPat n
    | .other => none

/-- A placeholder navigation target used by the base environment. -/
def navDefault : NavigationTarget :=
  { file := 0
    fullRange := { lo := 0, hi := 0 }
    focusRange := none
    label := none
    docs := none }

/-- A base environment where every external query returns nothing: the
symbol index is empty, no entity carries documentation or a label, every
type query fails, and the markup helpers are the identity on their
primary argument.  Concrete scenarios override individual fields. -/
def dbBase : Db :=
  { docsOf := fun _ => none
    labelOf := fun _ => none
    fieldSource := fun _ => .pos
    moduleSource := fun _ => .sourceFile
    navMacroDef := fun _ => navDefault
    navField := fun i => { navDefault with file := i }
    navImplItem := fun _ => navDefault
    navDefSource := fun _ => navDefault
    navDef := fun _ => none
    navAdtDef := fun _ => navDefault
    navPat := fun _ _ => navDefault
    navSelfParam := fun _ _ => navDefault
    navSymbol := fun s => { navDefault with file := s.id }
    navModule := fun _ => navDefault
    moduleFromDeclaration := none
    indexResolve := []
    docsFromSymbol := fun _ => none
    descriptionFromSymbol := fun _ => none
    rustCodeMarkup := fun s => s
    rustCodeMarkupWithDoc := fun d _ => d
    typeOfAt := fun _ _ => none }

/-- `HoverResult::to_markup`: prefixes a caveat when the result is not
exact; the caveat branch is reachable only from a result whose `exact`
field is `false`. -/
def HoverResult.to_markup (r : HoverResult) : String :=
  let markup :=
    if !r.exact then
      let msg := "Failed to exactly resolve the symbol. This is probably because rust_analyzer does not yet support traits."
      let msg :=
        if !r.results.isEmpty then msg ++ "  \nThese items were found instead:"
        else msg
      msg ++ "\n\n---\n"
    else ""
  markup ++ String.intercalate "\n\n---\n" r.results

/-- A recorded range of `none` under the guard
`if !res.is_empty then some rng else none` forces an empty
accumulation. -/
theorem range_guard_none (res : HoverResult) (rng : TextRange)
    (h : (if !res.is_empty then some rng else none) = none) :
    res.results = [] := by
  by_cases he : res.is_empty
  · simpa [HoverResult.is_empty, List.isEmpty_iff] using he
  · simp [he] at h

/-- If the name phases of `hover` record no range, they accumulated no
text: each branch records `some` range exactly when the accumulated
result is non-empty. -/
theorem hoverPhase1_range_none (db : Db) (inp : HoverInput)
    (h : (hoverPhase1 db inp).2 = none) :
    (hoverPhase1 db inp).1.results = [] := by
  obtain ⟨fid, nameRef, name, eop⟩ := inp
  cases nameRef with
  | some nr =>
    dsimp only [hoverPhase1] at h ⊢
    exact range_guard_none _ _ h
  | none =>
    cases name with
    | some nm =>
      dsimp only [hoverPhase1] at h ⊢
      exact range_guard_none _ _ h
    | none => rfl

/-- Every `some` result of `hover` carries at least one block: both
success exits of `hover` are guarded by an emptiness test. -/
theorem hover_some_ne_nil (db : Db) (inp : HoverInput) (rng : TextRange)
    (res : HoverResult) (h : hover db inp = some (rng, res)) :
    res.results ≠ [] := by
  unfold hover at h
  dsimp only at h
  cases hs : (hoverPhase1 db inp).2 with
  | some range =>
    rw [hs] at h
    dsimp only at h
    split at h
    · exact absurd h (by simp)
    · rename_i hne
      rw [Option.some.injEq, Prod.mk.injEq] at h
      obtain ⟨h1, h2⟩ := h
      subst h2
      simpa [HoverResult.is_empty, List.isEmpty_iff] using hne
  | none =>
    rw [hs] at h
    cases heop : inp.exprOrPat with
    | none => rw [heop] at h; exact absurd h (by simp)
    | some w =>
      rw [heop] at h
      dsimp only at h
      split at h
      · exact absurd h (by simp)
      · rename_i hne
        rw [Option.some.injEq, Prod.mk.injEq] at h
        obtain ⟨h1, h2⟩ := h
        subst h2
        simpa [HoverResult.is_empty, List.isEmpty_iff] using hne

/-- When the name phases recorded no range and `hover` succeeds, the
result comes from the widen step: the reported range is the widened
node's range and the result extends the phase-one accumulation by the
rendered type of that node. -/
theorem hover_widen_out (db : Db) (inp : HoverInput)
    (rng : TextRange) (res : HoverResult)
    (h1 : (hoverPhase1 db inp).2 = none)
    (h2 : hover db inp = some (rng, res)) :
    inp.exprOrPat = some rng ∧
    res = (hoverPhase1 db inp).1.extend
      ((db.typeOfAt inp.file_id rng).map db.rustCodeMarkup) := by
  unfold hover at h2
  dsimp only at h2
  rw [h1] at h2
  cases heop : inp.exprOrPat with
  | none => rw [heop] at h2; exact absurd h2 (by simp)
  | some w =>
    rw [heop] at h2
    dsimp only at h2
    split at h2
    · exact absurd h2 (by simp)
    · rw [Option.some.injEq, Prod.mk.injEq] at h2
      obtain ⟨hw, hres⟩ := h2
      subst hw
      exact ⟨rfl, hres.symm⟩

/-- C1 environment: an unclassifiable name reference whose only hover
content comes from the symbol-index fallback (one matching symbol with a
stored description). -/
def dbC1 : Db :=
  { dbBase with
    indexResolve := [{ id := 1 }]
    descriptionFromSymbol := fun _ => some "pub fn foo()" }

/-- C1 position: the cursor sits on a name reference that
`classify_name_ref` cannot classify. -/
def inpC1 : HoverInput :=
  { file_id := 1
    nameRef := some { range := { lo := 10, hi := 13 }, kind := none }
    name := none
    exprOrPat := none }

/-- C1: at a hover query whose every block came from the symbol-index
fallback (the classifier returned the unclassified state and the single
block was rendered from an indexed symbol's stored description),
`is_exact()` still reports `true`: `HoverResult::new` sets `exact` to
`true` and no code path of hover.rs ever clears it, so the claimed
`false` outcome cannot occur. -/
theorem hover_exact_flag_pure_fallback_c1 :
    hover dbC1 inpC1 =
      some ({ lo := 10, hi := 13 },
        { results := ["pub fn foo()"], exact := true }) ∧
    HoverResult.is_exact { results := ["pub fn foo()"], exact := true } = true :=
  ⟨rfl, rfl⟩

/-- C2 environment: a non-empty symbol index, to show the `Def`
downgrade ignores it. -/
def dbC2 : Db :=
  { dbBase with indexResolve := [{ id := 5 }] }

/-- C2: `reference_definition` is total by construction (it is a Lean
function into `ReferenceResult`), and when the `Def` branch cannot build
a navigation target from the resolved module-level definition it returns
`Approximate` with an empty sequence directly — for every content of the
symbol index, so the fallback is never consulted on that path. -/
theorem reference_definition_def_downgrade_c2 (db : Db) (file_id : Nat)
    (d : ModuleDef) (h : db.navDef d = none) :
    reference_definition db file_id (some (NameRefKind.defn d)) =
      ReferenceResult.Approximate [] ∧
    ∀ syms : List IndexSymbol,
      reference_definition { db with indexResolve := syms } file_id
        (some (NameRefKind.defn d)) = ReferenceResult.Approximate [] := by
  constructor
  · simp [reference_definition, h]
  · intro syms
    simp [reference_definition, h]

/-- C2 witness: a builtin-type `Def` whose target construction fails is
downgraded to an empty `Approximate`, also when the index holds a
match. -/
theorem reference_definition_def_downgrade_c2_witness :
    reference_definition dbC2 0
      (some (NameRefKind.defn { kind := ModuleDefKind.builtinType, id := 0 })) =
      ReferenceResult.Approximate [] ∧
    reference_definition { dbC2 with indexResolve := [{ id := 5 }] } 0
      (some (NameRefKind.defn { kind := ModuleDefKind.builtinType, id := 0 })) =
      ReferenceResult.Approximate [] := by
  obtain ⟨hA, hB⟩ := reference_definition_def_downgrade_c2 dbC2 0
    { kind := ModuleDefKind.builtinType, id := 0 } rfl
  exact ⟨hA, hB [{ id := 5 }]⟩

/-- C3 environment: the symbol index holds one symbol, mapped to a
navigation target that records its id. -/
def dbC3 : Db :=
  { dbBase with indexResolve := [{ id := 7 }] }

/-- C3 counterexample: a `SelfType` reference on a non-ADT type does
fall through to the symbol-index fallback: the Rust `match` arm ends
without returning and control reaches the fallback, so the result is
`Approximate` over the index matches — here a non-empty sequence built
from the indexed symbol, not the claimed absence of a result. -/
theorem selftype_nonadt_fallback_c3_cex :
    reference_definition dbC3 0 (some (NameRefKind.selfType { asAdt := none })) =
      ReferenceResult.Approximate [{ navDefault with file := 7 }] ∧
    ReferenceResult.Approximate [{ navDefault with file := 7 }] ≠
      ReferenceResult.Approximate [] :=
  ⟨rfl, by decide⟩

/-- C3 (amended): for every name reference classified as `SelfType`
whose type is not a user-defined algebraic data type, the branch emits
no target and `reference_definition` falls through to the symbol-index
fallback, returning `Approximate` over the index matches (empty exactly
when the index yields none). -/
theorem selftype_nonadt_fallback_c3 (db : Db) (file_id : Nat) (ty : Ty)
    (h : ty.asAdt = none) :
    reference_definition db file_id (some (NameRefKind.selfType ty)) =
      ReferenceResult.Approximate (db.indexResolve.map db.navSymbol) := by
  simp [reference_definition, h]

/-- C3 witness: the amended statement at the concrete environment. -/
theorem selftype_nonadt_fallback_c3_witness :
    reference_definition dbC3 0 (some (NameRefKind.selfType { asAdt := none })) =
      ReferenceResult.Approximate (dbC3.indexResolve.map dbC3.navSymbol) :=
  selftype_nonadt_fallback_c3 dbC3 0 { asAdt := none } rfl

/-- C4 environment: the symbol index holds one symbol whose name happens
to match the generic parameter textually. -/
def dbC4 : Db :=
  { dbBase with indexResolve := [{ id := 9 }] }

/-- C4 counterexample: a `GenericParam` reference does not return
`Approximate` with an empty sequence: the arm produces nothing but
control reaches the index fallback, which here yields a non-empty
`Approximate`. -/
theorem genericparam_fallback_c4_cex :
    reference_definition dbC4 0 (some (NameRefKind.genericParam 0)) =
      ReferenceResult.Approximate [{ navDefault with file := 9 }] ∧
    ReferenceResult.Approximate [{ navDefault with file := 9 }] ≠
      ReferenceResult.Approximate [] :=
  ⟨rfl, by decide⟩

/-- C4 (amended): for every name reference classified as
`GenericParam`, the branch produces nothing and `reference_definition`
falls through to the symbol-index fallback, returning `Approximate` over
the index matches — the empty sequence exactly when the index yields no
textual match. -/
theorem genericparam_fallback_c4 (db : Db) (file_id : Nat) (g : EntityId) :
    reference_definition db file_id (some (NameRefKind.genericParam g)) =
      ReferenceResult.Approximate (db.indexResolve.map db.navSymbol) := rfl

/-- C5 environment: the type query succeeds at every range. -/
def dbC5 : Db :=
  { dbBase with typeOfAt := fun _ _ => some "i32" }

/-- C5 position: a usage name (a name reference classified as a pattern
binding) is found at the offset, and an enclosing expression node
exists. -/
def inpC5 : HoverInput :=
  { file_id := 1
    nameRef := some { range := { lo := 20, hi := 23 }, kind := some (NameRefKind.pat 3) }
    name := none
    exprOrPat := some { lo := 18, hi := 25 } }

/-- C5 counterexample: the widen-to-nearest-expression-or-pattern step
is taken although a usage name was found at the position: the name
reference is present (classified as a pattern binding, which contributes
no block), yet the result is the rendered inferred type at the widened
node's range, which differs from the name reference's range. -/
theorem widen_step_with_nameref_c5_cex :
    inpC5.nameRef =
      some { range := { lo := 20, hi := 23 }, kind := some (NameRefKind.pat 3) } ∧
    hover dbC5 inpC5 =
      some ({ lo := 18, hi := 25 }, { results := ["i32"], exact := true }) ∧
    ({ lo := 18, hi := 25 } : TextRange) ≠ { lo := 20, hi := 23 } :=
  ⟨rfl, rfl, by decide⟩

/-- C5 (amended): the widen-to-nearest-expression-or-pattern step is
taken exactly when the name-reference and declaration-name phases left
the result empty — whether because no such name was found or because the
found name contributed no block — and that path yields at most one
block: the rendered inferred type of the widened node. -/
theorem widen_step_when_phase1_empty_c5 (db : Db) (inp : HoverInput)
    (rng : TextRange) (res : HoverResult)
    (h1 : (hoverPhase1 db inp).2 = none)
    (h2 : hover db inp = some (rng, res)) :
    inp.exprOrPat = some rng ∧
    res.results = ((db.typeOfAt inp.file_id rng).map db.rustCodeMarkup).toList ∧
    res.results.length ≤ 1 := by
  have hempty := hoverPhase1_range_none db inp h1
  obtain ⟨heop, hres⟩ := hover_widen_out db inp rng res h1 h2
  refine ⟨heop, ?_, ?_⟩
  · rw [hres]
    simp [HoverResult.extend, hempty]
  · rw [hres]
    simp [HoverResult.extend, hempty]
    cases db.typeOfAt inp.file_id rng <;> simp

/-- C5 witness: the amended statement at the concrete position of the
counterexample, where the name reference produced no block. -/
theorem widen_step_when_phase1_empty_c5_witness :
    inpC5.exprOrPat = some { lo := 18, hi := 25 } ∧
    (({ results := ["i32"], exact := true } : HoverResult)).results =
      ((dbC5.typeOfAt inpC5.file_id { lo := 18, hi := 25 }).map
        dbC5.rustCodeMarkup).toList ∧
    (({ results := ["i32"], exact := true } : HoverResult)).results.length ≤ 1 :=
  widen_step_when_phase1_empty_c5 dbC5 inpC5 { lo := 18, hi := 25 }
    { results := ["i32"], exact := true } rfl rfl

/-- C6 position: no name of either kind at the offset, but an enclosing
expression node exists (a coverable node), while the type query of
`dbBase` fails, so no text is ever accumulated. -/
def inpC6 : HoverInput :=
  { file_id := 1
    nameRef := none
    name := none
    exprOrPat := some { lo := 4, hi := 9 } }

/-- C6 counterexample: at a position that does match (the widen step
found a coverable expression node) but where no text was accumulated,
`hover` returns `none` — not `some` with an empty block list, so the
empty `HoverResult` is not an observable terminal state distinct from
the no-position-match outcome. -/
theorem hover_empty_returns_none_c6_cex :
    hover dbBase inpC6 = none ∧ inpC6.exprOrPat.isSome = true :=
  ⟨rfl, rfl⟩

/-- C6 (amended): `hover` never returns `some` with an empty block
list: both success exits are guarded by `if res.is_empty() return
None`, so an empty accumulation yields `none`, observably identical to
the no-position-match outcome. -/
theorem hover_some_nonempty_c6 (db : Db) (inp : HoverInput)
    (rng : TextRange) (res : HoverResult)
    (h : hover db inp = some (rng, res)) :
    res.results ≠ [] :=
  hover_some_ne_nil db inp rng res h

/-- C6 environment for the witness: the type query succeeds, so hover
returns a non-empty result. -/
def dbC6w : Db :=
  { dbBase with typeOfAt := fun _ _ => some "u32" }

/-- C6 witness: the amended statement at a succeeding hover query. -/
theorem hover_some_nonempty_c6_witness :
    (({ results := ["u32"], exact := true } : HoverResult)).results ≠ [] :=
  hover_some_nonempty_c6 dbC6w inpC6 { lo := 4, hi := 9 }
    { results := ["u32"], exact := true } rfl

/-- C7 environment: the type query succeeds and the symbol index is
non-empty with a stored description, so a consulted fallback would have
contributed a block. -/
def dbC7 : Db :=
  { dbBase with
    typeOfAt := fun _ _ => some "i32"
    indexResolve := [{ id := 1 }]
    descriptionFromSymbol := fun _ => some "fn x()" }

/-- C7 name reference: classified as a pattern binding. -/
def nrC7 : NameRefInfo :=
  { range := { lo := 5, hi := 8 }, kind := some (NameRefKind.pat 2) }

/-- C7 position: the pattern-binding usage, with the enclosing
expression node at the same span. -/
def inpC7 : HoverInput :=
  { file_id := 0
    nameRef := some nrC7
    name := none
    exprOrPat := some { lo := 5, hi := 8 } }

/-- C7: for a name reference classified as a pattern binding or a
`self` parameter, `hover` never invokes the symbol-index fallback (its
outcome is independent of the index contents), and whenever it returns a
result, that result is exact and its sole block is the rendered inferred
type of the widened binding node. -/
theorem hover_pat_selfparam_c7 (db : Db) (inp : HoverInput)
    (nr : NameRefInfo) (p : EntityId)
    (h1 : inp.nameRef = some nr)
    (h2 : nr.kind = some (NameRefKind.pat p) ∨
      nr.kind = some (NameRefKind.selfParam p)) :
    (∀ syms : List IndexSymbol,
      hover { db with indexResolve := syms } inp =
        hover { db with indexResolve := [] } inp) ∧
    ∀ rng res, hover db inp = some (rng, res) →
      inp.exprOrPat = some rng ∧
      res.is_exact = true ∧
      ∃ t, db.typeOfAt inp.file_id rng = some t ∧
        res.results = [db.rustCodeMarkup t] := by
  obtain ⟨fid, nameRef, name, eop⟩ := inp
  obtain ⟨nrRange, nrKind⟩ := nr
  cases h1
  have hphase : ∀ d : Db,
      hoverPhase1 d ⟨fid, some ⟨nrRange, nrKind⟩, name, eop⟩ =
        (HoverResult.new, none) := by
    intro d
    rcases h2 with h | h <;> rw [show nrKind = _ from h] <;> rfl
  constructor
  · intro syms
    rcases h2 with h | h <;> rw [show nrKind = _ from h] <;> rfl
  · intro rng res hh
    have hne := hover_some_ne_nil _ _ _ _ hh
    obtain ⟨heop, hres⟩ := hover_widen_out _ _ _ _ (by rw [hphase]) hh
    rw [hphase] at hres
    cases hty : db.typeOfAt fid rng with
    | none =>
      rw [hres, hty] at hne
      simp [HoverResult.extend, HoverResult.new] at hne
    | some t =>
      refine ⟨heop, ?_, t, rfl, ?_⟩
      · rw [hres]; rfl
      · rw [hres, hty]
        simp [HoverResult.extend, HoverResult.new]

/-- C7 witness: at the concrete pattern-binding query, hover's outcome
ignores the index contents, and the returned result is the exact,
single, rendered inferred type. -/
theorem hover_pat_selfparam_c7_witness :
    hover { dbC7 with indexResolve := [{ id := 9 }] } inpC7 =
      hover { dbC7 with indexResolve := [] } inpC7 ∧
    inpC7.exprOrPat = some { lo := 5, hi := 8 } ∧
    HoverResult.is_exact { results := ["i32"], exact := true } = true ∧
    ∃ t, dbC7.typeOfAt inpC7.file_id { lo := 5, hi := 8 } = some t ∧
      (({ results := ["i32"], exact := true } : HoverResult)).results =
        [dbC7.rustCodeMarkup t] := by
  obtain ⟨hA, hB⟩ := hover_pat_selfparam_c7 dbC7 inpC7 nrC7 2 rfl (Or.inl rfl)
  obtain ⟨hw, he, ht⟩ := hB { lo := 5, hi := 8 }
    { results := ["i32"], exact := true } rfl
  exact ⟨hA [{ id := 9 }], hw, he, ht⟩

/-- C8 environment: the `mod foo;` declaration resolves to a child
module whose `from_module` target points at the child file's root
(file 2, the whole file), mirroring the repository's own module
declaration test. -/
def dbC8 : Db :=
  { dbBase with
    moduleFromDeclaration := some 3
    navModule := fun _ =>
      { navDefault with file := 2, fullRange := { lo := 0, hi := 10 } } }

/-- C8 parent node: a `mod foo;` declaration (`has_semi`), full range
covering `mod foo;` with the name token `foo` as focus. -/
def declC8 : DeclNode :=
  { kind := DeclKind.module true
    range := { lo := 0, hi := 8 }
    nameRange := { lo := 4, hi := 7 }
    docs := none
    label := none }

/-- C8 name node: the declared module name. -/
def nameC8 : NameInfo :=
  { range := { lo := 4, hi := 7 }, parent := some declC8 }

/-- C8 counterexample: a module declaration is in the dispatch
categories, yet for a `mod name;` whose module resolves, the single
returned target is the `from_module` target at the child file — its
full range does not span the `mod name;` declaration and its focus
range is not the name token. -/
theorem name_definition_module_decl_c8_cex :
    declC8.kind = DeclKind.module true ∧
    name_definition dbC8 1 nameC8 =
      some [{ navDefault with file := 2, fullRange := { lo := 0, hi := 10 } }] ∧
    ({ navDefault with file := 2, fullRange := { lo := 0, hi := 10 } } :
      NavigationTarget).fullRange ≠ declC8.range ∧
    ({ navDefault with file := 2, fullRange := { lo := 0, hi := 10 } } :
      NavigationTarget).focusRange ≠ some declC8.nameRange := by
  refine ⟨rfl, rfl, ?_, ?_⟩ <;> decide

/-- C8 (amended): for every declaration name whose immediate parent is
one of the dispatch categories — excepting only a `mod name;`
declaration that resolves to a child module — `name_definition` returns
exactly one target whose full range is the parent declaration's range
and whose focus range is exactly the name token's range, with no short
label for macro declarations; a parent matching no category yields no
result; and a resolvable `mod name;` declaration instead returns the
single `from_module` target for the child module. -/
theorem name_definition_closed_dispatch_c8 (db : Db) (file_id : Nat)
    (nm : NameInfo) (p : DeclNode) (h1 : nm.parent = some p) :
    (p.kind ≠ DeclKind.other →
      (p.kind = DeclKind.module true → db.moduleFromDeclaration = none) →
      ∃ t, name_definition db file_id nm = some [t] ∧
        t.fullRange = p.range ∧ t.focusRange = some p.nameRange ∧
        (p.kind = DeclKind.mcall → t.label = none)) ∧
    (p.kind = DeclKind.other → name_definition db file_id nm = none) ∧
    (∀ m, p.kind = DeclKind.module true → db.moduleFromDeclaration = some m →
      name_definition db file_id nm = some [db.navModule m]) := by
  obtain ⟨nrng, nparent⟩ := nm
  cases h1
  obtain ⟨k, rg, nr2, ds, lb⟩ := p
  refine ⟨?_, ?_, ?_⟩
  · intro hko hmod
    cases k with
    | structDef => exact ⟨_, rfl, rfl, rfl, fun hc => nomatch hc⟩
    | enumDef => exact ⟨_, rfl, rfl, rfl, fun hc => nomatch hc⟩
    | enumVariant => exact ⟨_, rfl, rfl, rfl, fun hc => nomatch hc⟩
    | fnDef => exact ⟨_, rfl, rfl, rfl, fun hc => nomatch hc⟩
    | typeAliasDef => exact ⟨_, rfl, rfl, rfl, fun hc => nomatch hc⟩
    | constDef => exact ⟨_, rfl, rfl, rfl, fun hc => nomatch hc⟩
    | staticDef => exact ⟨_, rfl, rfl, rfl, fun hc => nomatch hc⟩
    | traitDef => exact ⟨_, rfl, rfl, rfl, fun hc => nomatch hc⟩
    | namedFieldDef => exact ⟨_, rfl, rfl, rfl, fun hc => nomatch hc⟩
    | mcall => exact ⟨_, rfl, rfl, rfl, fun _ => rfl⟩
    | other => exact absurd rfl hko
    | module hasSemi =>
      cases hasSemi with
      | false => exact ⟨_, rfl, rfl, rfl, fun hc => nomatch hc⟩
      | true =>
        have hnone := hmod rfl
        refine ⟨NavigationTarget.from_named file_id
          ⟨DeclKind.module true, rg, nr2, ds, lb⟩ ds lb, ?_, rfl, rfl,
          fun hc => nomatch hc⟩
        unfold name_definition
        dsimp only
        rw [hnone]
        rfl
  · intro hk
    cases hk
    rfl
  · intro m hk hm
    cases hk
    unfold name_definition
    dsimp only
    rw [hm]
    rfl

/-- C8 witness parent: a struct declaration with a short label. -/
def declC8w : DeclNode :=
  { kind := DeclKind.structDef
    range := { lo := 0, hi := 25 }
    nameRange := { lo := 7, hi := 10 }
    docs := none
    label := some "struct Foo" }

/-- C8 witness name node. -/
def nameC8w : NameInfo :=
  { range := { lo := 7, hi := 10 }, parent := some declC8w }

/-- C8 witness: the amended statement for a concrete struct
declaration. -/
theorem name_definition_closed_dispatch_c8_witness :
    ∃ t, name_definition dbBase 1 nameC8w = some [t] ∧
      t.fullRange = declC8w.range ∧ t.focusRange = some declC8w.nameRange ∧
      (declC8w.kind = DeclKind.mcall → t.label = none) :=
  (name_definition_closed_dispatch_c8 dbBase 1 nameC8w declC8w rfl).1
    (by decide) (fun h => nomatch h)

/-- C9 tree: a binary expression `[0,7)` with two child expressions, the
literal `[0,1)` and the path `[4,7)`. -/
def nLit : SynNode := .node .expr { lo := 0, hi := 1 } []

/-- C9 tree: the second child expression. -/
def nPath : SynNode := .node .expr { lo := 4, hi := 7 } []

/-- C9 tree: the outer expression node. -/
def nBin : SynNode := .node .expr { lo := 0, hi := 7 } [nLit, nPath]

/-- C9 semantic model: the outer expression has type `u32`, its first
child a different type `Foo`. -/
def semC9 : SemModel :=
  { typeOfExpr := fun n =>
      if n.range = { lo := 0, hi := 7 } then some "u32"
      else if n.range = { lo := 0, hi := 1 } then some "Foo"
      else none
    typeOfPat := fun _ => none }

/-- C9 counterexample: a sub-range strictly inside an expression need
not report the expression's type: the sub-range `[0,1)` inside the
expression `[0,7)` covers a proper sub-expression, and `type_of`
reports that inner expression's type `Foo`, not the outer `u32`. -/
theorem type_of_subrange_c9_cex :
    nBin.cat = SynCat.expr ∧
    TextRange.covers nBin.range { lo := 0, hi := 1 } = true ∧
    ({ lo := 0, hi := 1 } : TextRange) ≠ nBin.range ∧
    type_of nBin semC9 { lo := 0, hi := 1 } = some "Foo" ∧
    type_of nBin semC9 nBin.range = some "u32" ∧
    (some "Foo" : Option String) ≠ some "u32" :=
  ⟨rfl, rfl, by decide, rfl, rfl, by decide⟩

/-- C9 (amended): `type_of` reports the type of the node the covering
walk lands on, so range-widening idempotence holds exactly when the
sub-range widens to the expression itself: whenever the covering walks
of both the sub-range and the expression's maximal range land on the
expression node (the sub-range straddles its children), the two queries
agree and both report that expression's type. -/
theorem type_of_same_widening_c9 (t : SynNode) (m : SemModel)
    (r : TextRange) (e : SynNode) (rest rest' : List SynNode)
    (hcat : e.cat = SynCat.expr)
    (h1 : coveringPath t r = e :: rest)
    (h2 : coveringPath t e.range = e :: rest') :
    type_of t m r = m.typeOfExpr e ∧ type_of t m e.range = m.typeOfExpr e := by
  constructor
  · simp [type_of, find_covering_element, h1, hcat]
  · simp [type_of, find_covering_element, h2, hcat]

/-- C9 witness tree: an expression whose two children are plain token
spans, so every straddling sub-range widens to the expression itself. -/
def nRootW : SynNode :=
  .node .expr { lo := 0, hi := 7 }
    [.node .other { lo := 0, hi := 3 } [], .node .other { lo := 4, hi := 7 } []]

/-- C9 witness semantic model. -/
def semW : SemModel :=
  { typeOfExpr := fun _ => some "bool", typeOfPat := fun _ => none }

/-- C9 witness: the amended statement at a concrete straddling
sub-range. -/
theorem type_of_same_widening_c9_witness :
    type_of nRootW semW { lo := 2, hi := 5 } = some "bool" ∧
    type_of nRootW semW nRootW.range = some "bool" :=
  type_of_same_widening_c9 nRootW semW { lo := 2, hi := 5 } nRootW [] []
    rfl rfl rfl

/-- C10 environment: the referenced field's defining source is a named
field carrying docs and a label; `from_field` records the field id. -/
def dbC10 : Db :=
  { dbBase with
    fieldSource := fun _ => .named (some "field docs") (some "spam: u32") }

/-- C10 name reference: classified as a field access. -/
def nrC10 : NameRefInfo :=
  { range := { lo := 1, hi := 5 }, kind := some (NameRefKind.fieldAccess 4) }

/-- C10 position. -/
def inpC10 : HoverInput :=
  { file_id := 0, nameRef := some nrC10, name := none, exprOrPat := none }

/-- C10: for a name reference classified as `FieldAccess`, hover's
branch contributes a block only when the field's source is a named
field; on a positional field the branch contributes nothing and the
query proceeds exactly as for an unclassified reference (so the
symbol-index fallback is attempted), while `reference_definition` on
the same reference still returns an `Exact` target at the field
declaration. -/
theorem hover_field_access_c10 (db : Db) (inp : HoverInput)
    (nr : NameRefInfo) (f : EntityId) (file_id : Nat)
    (h1 : inp.nameRef = some nr)
    (h2 : nr.kind = some (NameRefKind.fieldAccess f)) :
    (db.fieldSource f = FieldSource.pos →
      hoverNameRefBranch db nr = (HoverResult.new, false) ∧
      hover db inp = hover db { inp with nameRef := some { nr with kind := none } }) ∧
    (∀ ds lb, db.fieldSource f = FieldSource.named ds lb →
      (hoverNameRefBranch db nr).1.results = (hover_text db ds lb).toList) ∧
    reference_definition db file_id (some (NameRefKind.fieldAccess f)) =
      ReferenceResult.Exact (db.navField f) := by
  obtain ⟨fid, nameRef, name, eop⟩ := inp
  obtain ⟨nrRange, nrKind⟩ := nr
  cases h1
  have hk : nrKind = some (NameRefKind.fieldAccess f) := h2
  subst hk
  refine ⟨?_, ?_, rfl⟩
  · intro hpos
    have hb : hoverNameRefBranch db ⟨nrRange, some (NameRefKind.fieldAccess f)⟩ =
        (HoverResult.new, false) := by
      unfold hoverNameRefBranch
      dsimp only
      rw [hpos]
    refine ⟨hb, ?_⟩
    unfold hover hoverPhase1
    dsimp only
    rw [hb]
    rfl
  · intro ds lb hnamed
    unfold hoverNameRefBranch
    dsimp only
    rw [hnamed]
    simp [HoverResult.extend, HoverResult.new]

/-- C10 witness: at the concrete named-field query, the branch renders
the field's label-with-docs block, and goto-definition is exact at the
field declaration. -/
theorem hover_field_access_c10_witness :
    (hoverNameRefBranch dbC10 nrC10).1.results = ["spam: u32"] ∧
    reference_definition dbC10 0 (some (NameRefKind.fieldAccess 4)) =
      ReferenceResult.Exact { navDefault with file := 4 } := by
  obtain ⟨h1, h2, h3⟩ := hover_field_access_c10 dbC10 inpC10 nrC10 4 0 rfl rfl
  exact ⟨h2 (some "field docs") (some "spam: u32") rfl, h3⟩
